import Mathlib

/-!
# Verification of `subscription_api/api.py`

A shallow embedding of the Frappe app `subscription_api` (repository
`Mmy2000/subscription-app`).  The module `subscription_api/api.py` exposes
remote-callable CRUD procedures over four document types stored in the
platform's document database: `Customer`/`Supplier` (the billing party),
`Item`, `Subscription Plan` and `Subscription`.

The document store is modelled as explicit lists of records (`Store`);
`frappe.db.exists` becomes a membership test on the record's key field,
`insert` appends the new document, `delete` filters it out, and
`Subscription.save` replaces the record in place.  Frappe generates a
unique document name on insert; this is modelled by a counter `nextId`
in the store.  Python dictionaries are modelled as structures of
`Option`-typed fields restricted to the keys the code reads; Python
truthiness of a string field (`not data.get(f)` is true for an absent
key, `None`, or `""`) is modelled by `strPresent`, and truthiness of the
`plan` sub-dictionary (an empty dict is falsy) by `planPresent`.
`str(value).lower()` applied to an absent value yields `"none"` (Python
renders `None` that way), which is captured by `strToBoolOpt`.
-/

namespace SubscriptionApi

/-- A row of the `plans` child table of a `Subscription` document
(fields `plan` and `qty`, as built by the dict literal
`{"plan": plan_name, "qty": quantity}` in `api.py`). -/
structure PlanRow where
  plan : String
  qty : Nat
deriving Repr, DecidableEq

/-- An `Item` document, with the fields the code writes when
auto-creating an item. -/
structure Item where
  item_code : String
  item_name : String
  item_group : String
  stock_uom : String
  is_stock_item : Nat
  disabled : Nat
  description : String
deriving Repr, DecidableEq

/-- A `Subscription Plan` document, with the fields the code writes when
auto-creating a plan. -/
structure SubscriptionPlan where
  plan_name : String
  item : String
  billing_interval : String
  billing_interval_count : Nat
  cost : Int
  price_determination : String
  description : String
deriving Repr, DecidableEq

/-- A `Subscription` document with the fields `api.py` reads or writes. -/
structure Subscription where
  name : String
  party_type : String
  party : String
  generate_invoice_at : String
  start_date : String
  end_date : String
  trial_period_start : Option String
  trial_period_end : Option String
  days_until_due : Option Nat
  generate_new_invoices_past_due_date : Bool
  cancel_at_period_end : Bool
  submit_invoice : Bool
  company : Option String
  plans : List PlanRow
deriving Repr, DecidableEq

/-- The document store: `Customer` and `Supplier` documents are keyed by
their name, `Item` by `item_code`, `Subscription Plan` by `plan_name`,
`Subscription` by the generated `name`.  `nextId` feeds the name
generator for newly inserted subscriptions. -/
structure Store where
  customers : List String
  suppliers : List String
  items : List Item
  plans : List SubscriptionPlan
  subscriptions : List Subscription
  nextId : Nat
deriving Repr, DecidableEq

/-- The empty document store. -/
def Store.empty : Store :=
  { customers := [], suppliers := [], items := [], plans := []
    subscriptions := [], nextId := 0 }

/-- Embeds `frappe.db.exists("Customer", name)`. -/
def customerExists (s : Store) (n : String) : Bool :=
  s.customers.any (fun c => c == n)

/-- Embeds `frappe.db.exists("Supplier", name)`. -/
def supplierExists (s : Store) (n : String) : Bool :=
  s.suppliers.any (fun c => c == n)

/-- Embeds `frappe.db.exists("Item", item_code)`. -/
def itemExists (s : Store) (code : String) : Bool :=
  s.items.any (fun it => it.item_code == code)

/-- Embeds `frappe.db.exists("Subscription Plan", plan_name)`. -/
def planExists (s : Store) (n : String) : Bool :=
  s.plans.any (fun p => p.plan_name == n)

/-- Embeds `frappe.db.exists("Subscription", subscription_id)`. -/
def subscriptionExists (s : Store) (n : String) : Bool :=
  s.subscriptions.any (fun sub => sub.name == n)

/-- The document name frappe assigns to the `n`-th inserted subscription. -/
def genSubName (n : Nat) : String := "SUB-" ++ toString n

/-- Python truthiness of an optional string field: `not data.get(f)`
holds when the key is absent (`None`) or the value is the empty string. -/
def strPresent : Option String → Bool
  | none => false
  | some v => !(v == "")

/-- The `plan` sub-dictionary of the `create` payload, restricted to the
keys the code reads (`name`, `item_code`, `quantity`, `billing_interval`,
`billing_interval_count`, `rate`, `description`); an absent key is
`none`. -/
structure PlanInput where
  name : Option String
  item_code : Option String
  quantity : Option Nat
  billing_interval : Option String
  billing_interval_count : Option Nat
  rate : Option Int
  description : Option String
deriving Repr, DecidableEq

/-- A `plan` sub-dictionary with no keys set (the empty dict, which is
falsy in Python). -/
def PlanInput.emptyDict : PlanInput :=
  { name := none, item_code := none, quantity := none
    billing_interval := none, billing_interval_count := none
    rate := none, description := none }

/-- Python truthiness of `data.get("plan")`: falsy when the key is
absent or the sub-dictionary is empty. -/
def planPresent : Option PlanInput → Bool
  | none => false
  | some p => !(p == PlanInput.emptyDict)

/-- The payload of `create_subscription`, restricted to the keys the
code reads; an absent key is `none`. -/
structure CreateData where
  party_type : Option String
  party : Option String
  start_date : Option String
  end_date : Option String
  plan : Option PlanInput
  generate_invoice_at : Option String
  trial_period_start : Option String
  trial_period_end : Option String
  days_until_due : Option Nat
  generate_new_invoices_past_due_date : Option String
  cancel_at_period_end : Option String
  submit_invoice : Option String
deriving Repr, DecidableEq

/-- Python `str.lower()` as used by the code (ASCII inputs compared
against ASCII literals): per-character lowercasing. -/
def pyLower (s : String) : String := String.mk (s.data.map Char.toLower)

/-- Embeds `str_to_bool(value)` from `api.py`:
`str(value).lower() in ("true", "1", "yes")`. -/
def str_to_bool (value : String) : Bool :=
  pyLower value == "true" || pyLower value == "1" || pyLower value == "yes"

/-- Embeds `str_to_bool(data.get(key))`: an absent key gives Python `None`,
whose string form is `"None"`. -/
def strToBoolOpt : Option String → Bool
  | none => str_to_bool "None"
  | some v => str_to_bool v

/-- The `required_fields` list of `create_subscription`, in source
order. -/
def required_fields : List String :=
  ["party_type", "party", "start_date", "end_date", "plan"]

/-- Embeds `not data.get(field)` for each of the five required field names of
`create_subscription`. -/
def fieldPresent (d : CreateData) : String → Bool
  | "party_type" => strPresent d.party_type
  | "party" => strPresent d.party
  | "start_date" => strPresent d.start_date
  | "end_date" => strPresent d.end_date
  | "plan" => planPresent d.plan
  | _ => true

/-- Step 0 of `create_subscription`: create the `Customer` or
`Supplier` document if the named party does not exist.  Any other
`party_type` creates nothing. -/
def createPartyIfMissing (party_type party_name : String) (s : Store) : Store :=
  if pyLower party_type == "customer" then
    if customerExists s party_name then s
    else { s with customers := s.customers ++ [party_name] }
  else if pyLower party_type == "supplier" then
    if supplierExists s party_name then s
    else { s with suppliers := s.suppliers ++ [party_name] }
  else s

/-- The `Item` document inserted by the auto-creation branch, with the
hardcoded default field values of `api.py`. -/
def mkAutoItem (item_code plan_name : String) : Item :=
  { item_code := item_code
    item_name := plan_name
    item_group := "All Item Groups"
    stock_uom := "Nos"
    is_stock_item := 0
    disabled := 0
    description := "Auto-generated item for " ++ plan_name }

/-- The `Subscription Plan` document inserted by the auto-creation
branch, with the hardcoded defaults of `api.py`. -/
def mkAutoPlan (plan_name item_code : String) (pd : PlanInput) : SubscriptionPlan :=
  { plan_name := plan_name
    item := item_code
    billing_interval := pd.billing_interval.getD "Month"
    billing_interval_count := pd.billing_interval_count.getD 1
    cost := pd.rate.getD 0
    price_determination := "Fixed Rate"
    description := pd.description.getD ("Auto-created plan for " ++ plan_name) }

/-- Result of `create_subscription`: the `{"status": ...}` dict it
returns. -/
inductive CreateResp where
  | error (message : String)
  | success (subscription_id : String) (item_created plan_created : Bool)
deriving Repr, DecidableEq

/-- The `Item` creation step shared verbatim by `create_subscription`
(step 1) and the `update_subscription` plans loop: create the `Item`
document if absent (insert committed immediately). -/
def itemStep (pd : PlanInput) (s : Store) : Store :=
  if itemExists s (pd.item_code.getD "") then s
  else { s with items :=
          s.items ++ [mkAutoItem (pd.item_code.getD "") (pd.name.getD "")] }

/-- The `Item` and `Subscription Plan` creation steps shared verbatim by
`create_subscription` (steps 1 and 2) and the `update_subscription`
plans loop: create the `Item` if absent, then create the
`Subscription Plan` if absent (each insert committed immediately). -/
def planStep (pd : PlanInput) (s : Store) : Store :=
  if planExists (itemStep pd s) (pd.name.getD "") then itemStep pd s
  else { itemStep pd s with plans :=
          (itemStep pd s).plans
            ++ [mkAutoPlan (pd.name.getD "") (pd.item_code.getD "") pd] }

/-- The `Subscription` document built by step 3 of `create_subscription`,
given the name counter of the store at insertion time. -/
def mkNewSub (d : CreateData) (pd : PlanInput) (nextId : Nat) : Subscription :=
  { name := genSubName nextId
    party_type := d.party_type.getD ""
    party := d.party.getD ""
    generate_invoice_at :=
      d.generate_invoice_at.getD "End of the current subscription period"
    start_date := d.start_date.getD ""
    end_date := d.end_date.getD ""
    trial_period_start := d.trial_period_start
    trial_period_end := d.trial_period_end
    days_until_due := d.days_until_due
    generate_new_invoices_past_due_date :=
      strToBoolOpt d.generate_new_invoices_past_due_date
    cancel_at_period_end := strToBoolOpt d.cancel_at_period_end
    submit_invoice := strToBoolOpt d.submit_invoice
    company := none
    plans := [{ plan := pd.name.getD "", qty := pd.quantity.getD 1 }] }

/-- Steps 1 to 3 of `create_subscription` (after the party step and the
`plan_name`/`item_code` validation): create the `Item` if absent, create
the `Subscription Plan` if absent (both via `planStep`, as the code of
these two steps is duplicated verbatim in `update_subscription`), then
insert the new `Subscription`.  `item_created` is the negated existence
check on the store before step 1; `plan_created` is the negated
existence check on the store after step 1 (`itemStep`), exactly as the
two flags are computed in the source. -/
def createMain (d : CreateData) (pd : PlanInput) (s1 : Store) : CreateResp × Store :=
  (.success (mkNewSub d pd (planStep pd s1).nextId).name
      (!itemExists s1 (pd.item_code.getD ""))
      (!planExists (itemStep pd s1) (pd.name.getD "")),
   { planStep pd s1 with
       subscriptions := (planStep pd s1).subscriptions
         ++ [mkNewSub d pd (planStep pd s1).nextId]
       nextId := (planStep pd s1).nextId + 1 })

/-- Embeds `create_subscription(data)` from `api.py`, returning the response
dict together with the document store after the call.  The required
field loop is `required_fields.find?`, returning the first falsy field;
party creation precedes the `plan_name`/`item_code` check exactly as in
the source.  The inner `none` branch of the match on `data.plan` is
unreachable (the find? loop already rejected an absent plan). -/
def create_subscription (d : CreateData) (s0 : Store) : CreateResp × Store :=
  match required_fields.find? (fun f => !fieldPresent d f) with
  | some f => (.error ("Missing required field: " ++ f), s0)
  | none =>
    match d.plan with
    | none => (.error "Missing required field: plan", s0)
    | some pd =>
      let s1 := createPartyIfMissing (d.party_type.getD "") (d.party.getD "") s0
      if !strPresent pd.name || !strPresent pd.item_code then
        (.error "Plan must include \x27name\x27 and \x27item_code\x27.", s1)
      else
        createMain d pd s1

/-- Result of `delete_subscription`. -/
inductive DeleteResp where
  | error (message : String)
  | success (message : String)
deriving Repr, DecidableEq

/-- Embeds `delete_subscription(subscription_id)` from `api.py`.  The argument
is optional to model an absent/`None` parameter; `not subscription_id`
is falsy for `None` and for the empty string. -/
def delete_subscription (sid? : Option String) (s : Store) : DeleteResp × Store :=
  if !strPresent sid? then (.error "Missing subscription_id", s)
  else if !subscriptionExists s (sid?.getD "") then
    (.error ("Subscription \x27" ++ sid?.getD "" ++ "\x27 does not exist"), s)
  else
    (.success ("Subscription \x27" ++ sid?.getD "" ++ "\x27 deleted successfully"),
     { s with subscriptions :=
         s.subscriptions.filter (fun sub => !(sub.name == sid?.getD "")) })

/-- The payload of `update_subscription`, restricted to the keys the
code reads.  `update_subscription` tests key presence (`"company" in
data`), not truthiness, for the five scalar fields; `none` models an
absent key.  `plans` is `none` when the key is absent
(`data.get("plans", [])` then iterates over the empty list). -/
structure UpdateData where
  subscription_id : Option String
  company : Option String
  generate_invoice_at : Option String
  generate_new_invoices_past_due_date : Option String
  cancel_at_period_end : Option String
  submit_invoice : Option String
  plans : Option (List PlanInput)
deriving Repr, DecidableEq

/-- Embeds the `for plan_data in data.get("plans", [])` loop of
`update_subscription`: validates each entry, applies `planStep`, and
accumulates the new plan rows.  On an invalid entry it returns the
error message; documents created by earlier iterations stay in the
store, as their inserts were already committed. -/
def processPlans (s : Store) : List PlanInput → Store × Except String (List PlanRow)
  | [] => (s, .ok [])
  | pd :: rest =>
    if !strPresent pd.name || !strPresent pd.item_code then
      (s, .error "Each plan must include \x27name\x27 and \x27item_code\x27")
    else
      match processPlans (planStep pd s) rest with
      | (s3, .ok rows) =>
          (s3, .ok ({ plan := pd.name.getD "", qty := pd.quantity.getD 1 } :: rows))
      | (s3, .error m) => (s3, .error m)

/-- Result of `update_subscription`. -/
inductive UpdateResp where
  | error (message : String)
  | success (message : String) (updated_plans : List PlanRow)
deriving Repr, DecidableEq

/-- The in-memory mutation of the loaded `Subscription` document in
`update_subscription`: each scalar field is assigned only when its key
is present in the payload, and the `plans` child table is cleared and
re-appended only when `updated_plans` is non-empty. -/
def applyUpdateFields (d : UpdateData) (updated_plans : List PlanRow)
    (sub : Subscription) : Subscription :=
  let sub := match d.company with
    | some c => { sub with company := some c }
    | none => sub
  let sub := match d.generate_invoice_at with
    | some g => { sub with generate_invoice_at := g }
    | none => sub
  let sub := match d.generate_new_invoices_past_due_date with
    | some v => { sub with generate_new_invoices_past_due_date := str_to_bool v }
    | none => sub
  let sub := match d.cancel_at_period_end with
    | some v => { sub with cancel_at_period_end := str_to_bool v }
    | none => sub
  let sub := match d.submit_invoice with
    | some v => { sub with submit_invoice := str_to_bool v }
    | none => sub
  if updated_plans.isEmpty then sub
  else { sub with plans := updated_plans }

/-- Embeds `update_subscription(data)` from `api.py`.  The field assignments on
the in-memory document happen before the plans loop in the source, but
they reach the store only through `subscription.save()` at the end; an
error return inside the loop leaves the stored subscription unchanged
while keeping the already committed `Item`/`Subscription Plan`
inserts. -/
def update_subscription (d : UpdateData) (s0 : Store) : UpdateResp × Store :=
  if !strPresent d.subscription_id then
    (.error "Missing \x27subscription_id\x27", s0)
  else if !subscriptionExists s0 (d.subscription_id.getD "") then
    (.error ("Subscription \x27" ++ d.subscription_id.getD ""
              ++ "\x27 does not exist"), s0)
  else
    match processPlans s0 (d.plans.getD []) with
    | (s1, .error m) => (.error m, s1)
    | (s1, .ok updated_plans) =>
      (.success ("Subscription \x27" ++ d.subscription_id.getD ""
                  ++ "\x27 updated successfully") updated_plans,
       { s1 with subscriptions :=
           s1.subscriptions.map (fun sub =>
             if sub.name == d.subscription_id.getD ""
             then applyUpdateFields d updated_plans sub else sub) })

/-- Insertion into a list kept in descending `start_date` order, the
order produced by the SQL `order_by="start_date desc"` of
`get_all_subscriptions`. -/
def descInsert (a : Subscription) : List Subscription → List Subscription
  | [] => [a]
  | b :: l =>
    if b.start_date ≤ a.start_date then a :: b :: l
    else b :: descInsert a l

/-- Sorting by descending `start_date`, modelling the SQL
`order_by="start_date desc"`. -/
def sortByStartDateDesc : List Subscription → List Subscription
  | [] => []
  | a :: l => descInsert a (sortByStartDateDesc l)

/-- Embeds `get_all_subscriptions()` from `api.py`: all `Subscription` records,
ordered by `start_date` descending, no filters, no limit. -/
def get_all_subscriptions (s : Store) : List Subscription :=
  sortByStartDateDesc s.subscriptions

/-- Embeds `get_party_type()` from `api.py`: the distinct `party_type` values
of the `Subscription` records, in ascending order (SQL
`select distinct party_type ... order by party_type`). -/
def get_party_type (s : Store) : List String :=
  ((s.subscriptions.map Subscription.party_type).dedup).mergeSort (fun a b => a ≤ b)

/-- A JSON-like value, modelling the wire shape of what each
remote-callable procedure returns after frappe serializes it. -/
inductive JValue where
  | str (s : String)
  | bool (b : Bool)
  | nat (n : Nat)
  | arr (l : List JValue)
  | obj (kvs : List (String × JValue))

/-- Wire form of one `{"plan": ..., "qty": ...}` row. -/
def PlanRow.toJson (r : PlanRow) : JValue :=
  .obj [("plan", .str r.plan), ("qty", .nat r.qty)]

/-- Wire form of the dict returned by `create_subscription`. -/
def CreateResp.toJson : CreateResp → JValue
  | .error m => .obj [("status", .str "error"), ("message", .str m)]
  | .success sid ic pc =>
      .obj [("status", .str "success"), ("subscription_id", .str sid),
            ("item_created", .bool ic), ("plan_created", .bool pc)]

/-- Wire form of the dict returned by `delete_subscription`. -/
def DeleteResp.toJson : DeleteResp → JValue
  | .error m => .obj [("status", .str "error"), ("message", .str m)]
  | .success m => .obj [("status", .str "success"), ("message", .str m)]

/-- Wire form of the dict returned by `update_subscription`. -/
def UpdateResp.toJson : UpdateResp → JValue
  | .error m => .obj [("status", .str "error"), ("message", .str m)]
  | .success m plans =>
      .obj [("status", .str "success"), ("message", .str m),
            ("updated_plans", .arr (plans.map PlanRow.toJson))]

/-- Wire form of one `Subscription` record as returned by
`frappe.get_all(..., fields=["*"])`. -/
def Subscription.toJson (sub : Subscription) : JValue :=
  .obj [("name", .str sub.name), ("party_type", .str sub.party_type),
        ("party", .str sub.party),
        ("generate_invoice_at", .str sub.generate_invoice_at),
        ("start_date", .str sub.start_date), ("end_date", .str sub.end_date),
        ("generate_new_invoices_past_due_date",
          .bool sub.generate_new_invoices_past_due_date),
        ("cancel_at_period_end", .bool sub.cancel_at_period_end),
        ("submit_invoice", .bool sub.submit_invoice)]

/-- Wire form of the value returned by `get_all_subscriptions`: a JSON
array of records, not a status mapping. -/
def get_all_subscriptions_response (s : Store) : JValue :=
  .arr ((get_all_subscriptions s).map Subscription.toJson)

/-- Test whether a wire value is a mapping containing a `status` field
equal to `"success"` or `"error"`. -/
def hasStatusField : JValue → Bool
  | .obj kvs =>
    match kvs.lookup "status" with
    | some (.str st) => st == "success" || st == "error"
    | _ => false
  | _ => false

/-- The response-shape contract of the three mutating endpoints: a
mapping with `status` equal to `"error"` (with a `message`) or
`"success"` (with the given operation-specific keys all present). -/
def wireShapeOk (v : JValue) (successKeys : List String) : Bool :=
  match v with
  | .obj kvs =>
    match kvs.lookup "status" with
    | some (.str "error") => (kvs.lookup "message").isSome
    | some (.str "success") => successKeys.all (fun k => (kvs.lookup k).isSome)
    | _ => false
  | _ => false

/-- One call to a mutating endpoint of the module. -/
inductive Op where
  | create (d : CreateData)
  | update (d : UpdateData)
  | delete (sid : Option String)

/-- The store after one endpoint call (the response is discarded). -/
def applyOp (s : Store) : Op → Store
  | .create d => (create_subscription d s).2
  | .update d => (update_subscription d s).2
  | .delete sid => (delete_subscription sid s).2

/-- The store after a sequence of endpoint calls. -/
def runOps (s : Store) : List Op → Store
  | [] => s
  | op :: ops => runOps (applyOp s op) ops

/-- Referential integrity invariant: every plan row of every stored
`Subscription` names an existing `Subscription Plan`, and every stored
`Subscription Plan` names an existing `Item`. -/
def Inv (s : Store) : Prop :=
  (∀ sub ∈ s.subscriptions, ∀ row ∈ sub.plans, planExists s row.plan = true)
  ∧ (∀ p ∈ s.plans, itemExists s p.item = true)

/-- The per-subscription frame of `update_subscription`: the identifying
and schedule fields are never touched, and each mutable scalar field is
unchanged when its key is absent from the payload. -/
def frameOk (d : UpdateData) (old new : Subscription) : Prop :=
  new.name = old.name ∧ new.party_type = old.party_type
  ∧ new.party = old.party ∧ new.start_date = old.start_date
  ∧ new.end_date = old.end_date
  ∧ new.trial_period_start = old.trial_period_start
  ∧ new.trial_period_end = old.trial_period_end
  ∧ new.days_until_due = old.days_until_due
  ∧ (d.company = none → new.company = old.company)
  ∧ (d.generate_invoice_at = none →
      new.generate_invoice_at = old.generate_invoice_at)
  ∧ (d.generate_new_invoices_past_due_date = none →
      new.generate_new_invoices_past_due_date
        = old.generate_new_invoices_past_due_date)
  ∧ (d.cancel_at_period_end = none →
      new.cancel_at_period_end = old.cancel_at_period_end)
  ∧ (d.submit_invoice = none → new.submit_invoice = old.submit_invoice)

/-- The full frame relation between a stored subscription before and
after `update_subscription`: a subscription other than the targeted one
is completely unchanged, and even the targeted one satisfies
`frameOk`. -/
def updFrame (d : UpdateData) (old new : Subscription) : Prop :=
  (old.name ≠ d.subscription_id.getD "" → new = old) ∧ frameOk d old new

/-- Concrete `plan` payload used by the witnesses. -/
def pdGold : PlanInput :=
  { name := some "Gold", item_code := some "ITM-1", quantity := some 2
    billing_interval := none, billing_interval_count := none
    rate := some 10, description := none }

/-- A second concrete `plan` payload. -/
def pdSilver : PlanInput :=
  { name := some "Silver", item_code := some "ITM-2", quantity := some 3
    billing_interval := none, billing_interval_count := none
    rate := none, description := none }

/-- A fully valid `create` payload. -/
def dGold : CreateData :=
  { party_type := some "Customer", party := some "Alice"
    start_date := some "2024-01-01", end_date := some "2024-12-31"
    plan := some pdGold, generate_invoice_at := none
    trial_period_start := none, trial_period_end := none
    days_until_due := none, generate_new_invoices_past_due_date := none
    cancel_at_period_end := some "no", submit_invoice := none }

/-- A `create` payload with every key absent. -/
def dNothing : CreateData :=
  { party_type := none, party := none, start_date := none, end_date := none
    plan := none, generate_invoice_at := none, trial_period_start := none
    trial_period_end := none, days_until_due := none
    generate_new_invoices_past_due_date := none
    cancel_at_period_end := none, submit_invoice := none }

/-- A `create` payload whose required fields are all present but whose
`plan` sub-dictionary lacks `name`. -/
def dBadPlan : CreateData :=
  { dNothing with
      party_type := some "Customer", party := some "Alice"
      start_date := some "2024-01-01", end_date := some "2024-12-31"
      plan := some { PlanInput.emptyDict with item_code := some "ITM-1" } }

/-- A concrete stored subscription with one plan row. -/
def subGold : Subscription :=
  { name := "SUB-0", party_type := "Customer", party := "Alice"
    generate_invoice_at := "End of the current subscription period"
    start_date := "2024-01-01", end_date := "2024-12-31"
    trial_period_start := none, trial_period_end := none
    days_until_due := none, generate_new_invoices_past_due_date := false
    cancel_at_period_end := false, submit_invoice := false
    company := none, plans := [{ plan := "Gold", qty := 2 }] }

/-- A concrete store holding one customer, one item, one plan and one
subscription. -/
def sGold : Store :=
  { customers := ["Alice"], suppliers := []
    items := [mkAutoItem "ITM-1" "Gold"]
    plans := [mkAutoPlan "Gold" "ITM-1" pdGold]
    subscriptions := [subGold], nextId := 1 }

/-- An `update` payload with every key absent. -/
def udNothing : UpdateData :=
  { subscription_id := none, company := none, generate_invoice_at := none
    generate_new_invoices_past_due_date := none
    cancel_at_period_end := none, submit_invoice := none, plans := none }

/-- An `update` payload carrying an empty `plans` array. -/
def udEmptyPlans : UpdateData :=
  { udNothing with subscription_id := some "SUB-0", plans := some [] }

/-- An `update` payload replacing the plan list with one `Silver` row. -/
def udSilver : UpdateData :=
  { udNothing with subscription_id := some "SUB-0", plans := some [pdSilver] }

/-! ## Helper lemmas -/

lemma find?_of_append_cons {α} (p : α → Bool) (l₁ : List α) (a : α)
    (l₂ : List α) (h1 : ∀ x ∈ l₁, p x = false) (h2 : p a = true) :
    (l₁ ++ a :: l₂).find? p = some a := by
  induction l₁ with
  | nil => simp [List.find?, h2]
  | cons b l ih =>
    have hb := h1 b (by simp)
    simpa [List.find?, hb] using ih (fun x hx => h1 x (by simp [hx]))

lemma any_append_left {α} (l e : List α) (p : α → Bool) (h : l.any p = true) :
    (l ++ e).any p = true := by
  simp [List.any_append, h]

lemma itemExists_eq_of_items_eq {s1 s2 : Store} (h : s1.items = s2.items)
    (c : String) : itemExists s1 c = itemExists s2 c := by
  simp [itemExists, h]

lemma planExists_eq_of_plans_eq {s1 s2 : Store} (h : s1.plans = s2.plans)
    (n : String) : planExists s1 n = planExists s2 n := by
  simp [planExists, h]

lemma createPartyIfMissing_frame (pt pn : String) (s : Store) :
    (createPartyIfMissing pt pn s).items = s.items
    ∧ (createPartyIfMissing pt pn s).plans = s.plans
    ∧ (createPartyIfMissing pt pn s).subscriptions = s.subscriptions
    ∧ (createPartyIfMissing pt pn s).nextId = s.nextId := by
  unfold createPartyIfMissing
  split
  · split <;> simp
  · split
    · split <;> simp
    · simp

lemma itemStep_frame (pd : PlanInput) (s : Store) :
    (itemStep pd s).customers = s.customers
    ∧ (itemStep pd s).suppliers = s.suppliers
    ∧ (itemStep pd s).subscriptions = s.subscriptions
    ∧ (itemStep pd s).nextId = s.nextId
    ∧ (∃ e, (itemStep pd s).items = s.items ++ e)
    ∧ (itemStep pd s).plans = s.plans := by
  unfold itemStep
  split
  · exact ⟨rfl, rfl, rfl, rfl, ⟨[], by simp⟩, rfl⟩
  · exact ⟨rfl, rfl, rfl, rfl, ⟨_, rfl⟩, rfl⟩

lemma planStep_frame (pd : PlanInput) (s : Store) :
    (planStep pd s).customers = s.customers
    ∧ (planStep pd s).suppliers = s.suppliers
    ∧ (planStep pd s).subscriptions = s.subscriptions
    ∧ (planStep pd s).nextId = s.nextId
    ∧ (∃ e, (planStep pd s).items = s.items ++ e)
    ∧ (∃ e, (planStep pd s).plans = s.plans ++ e) := by
  obtain ⟨hc, hs, hsub, hn, ⟨e1, hi⟩, hp⟩ := itemStep_frame pd s
  unfold planStep
  split
  · exact ⟨hc, hs, hsub, hn, ⟨e1, hi⟩, ⟨[], by simp [hp]⟩⟩
  · exact ⟨hc, hs, hsub, hn, ⟨e1, hi⟩, ⟨_, by rw [hp]⟩⟩

lemma planStep_planExists (pd : PlanInput) (s : Store) :
    planExists (planStep pd s) (pd.name.getD "") = true := by
  unfold planStep
  split
  · assumption
  · simp [planExists, List.any_append, mkAutoPlan]

lemma itemStep_itemExists (pd : PlanInput) (s : Store) :
    itemExists (itemStep pd s) (pd.item_code.getD "") = true := by
  unfold itemStep
  split
  · assumption
  · simp [itemExists, List.any_append, mkAutoItem]

lemma createMain_fst (d : CreateData) (pd : PlanInput) (s1 : Store) :
    (createMain d pd s1).1
      = .success (genSubName s1.nextId)
          (!itemExists s1 (pd.item_code.getD ""))
          (!planExists s1 (pd.name.getD "")) := by
  obtain ⟨-, -, -, hn, -, -⟩ := planStep_frame pd s1
  obtain ⟨-, -, -, -, -, hp⟩ := itemStep_frame pd s1
  unfold createMain
  rw [planExists_eq_of_plans_eq hp]
  simp [mkNewSub, hn]

lemma createMain_store (d : CreateData) (pd : PlanInput) (s1 : Store) :
    (createMain d pd s1).2.customers = s1.customers
    ∧ (createMain d pd s1).2.suppliers = s1.suppliers
    ∧ (createMain d pd s1).2.subscriptions
        = s1.subscriptions ++ [mkNewSub d pd s1.nextId]
    ∧ (createMain d pd s1).2.nextId = s1.nextId + 1
    ∧ planExists (createMain d pd s1).2 (pd.name.getD "") = true := by
  obtain ⟨hc, hs, hsub, hn, -, -⟩ := planStep_frame pd s1
  unfold createMain
  refine ⟨hc, hs, by rw [hsub, hn], by rw [hn], ?_⟩
  rw [planExists_eq_of_plans_eq (rfl : ({ planStep pd s1 with
        subscriptions := (planStep pd s1).subscriptions
          ++ [mkNewSub d pd (planStep pd s1).nextId]
        nextId := (planStep pd s1).nextId + 1 } : Store).plans
      = (planStep pd s1).plans)]
  exact planStep_planExists pd s1

lemma descInsert_perm (a : Subscription) (l : List Subscription) :
    (descInsert a l).Perm (a :: l) := by
  induction l with
  | nil => simp [descInsert]
  | cons b l ih =>
    unfold descInsert
    split
    · exact List.Perm.refl _
    · exact (ih.cons b).trans (List.Perm.swap a b l)

lemma descInsert_pairwise (a : Subscription) (l : List Subscription)
    (h : l.Pairwise (fun x y => y.start_date ≤ x.start_date)) :
    (descInsert a l).Pairwise (fun x y => y.start_date ≤ x.start_date) := by
  induction l with
  | nil => simp [descInsert]
  | cons b l ih =>
    rcases List.pairwise_cons.mp h with ⟨hb, hl⟩
    unfold descInsert
    split
    · rename_i hba
      refine List.pairwise_cons.mpr ⟨?_, h⟩
      intro y hy
      rcases List.mem_cons.mp hy with rfl | hyl
      · exact hba
      · exact le_trans (hb y hyl) hba
    · rename_i hba
      refine List.pairwise_cons.mpr ⟨?_, ih hl⟩
      intro y hy
      rcases List.mem_cons.mp ((descInsert_perm a l).mem_iff.mp hy) with rfl | hyl
      · exact le_of_not_le hba
      · exact hb y hyl

lemma sortByStartDateDesc_perm (l : List Subscription) :
    (sortByStartDateDesc l).Perm l := by
  induction l with
  | nil => exact List.Perm.refl _
  | cons a l ih => exact (descInsert_perm a (sortByStartDateDesc l)).trans (ih.cons a)

lemma sortByStartDateDesc_pairwise (l : List Subscription) :
    (sortByStartDateDesc l).Pairwise (fun x y => y.start_date ≤ x.start_date) := by
  induction l with
  | nil => simp [sortByStartDateDesc]
  | cons a l ih => exact descInsert_pairwise a _ ih

lemma processPlans_frame (ps : List PlanInput) (s : Store) :
    (processPlans s ps).1.customers = s.customers
    ∧ (processPlans s ps).1.suppliers = s.suppliers
    ∧ (processPlans s ps).1.subscriptions = s.subscriptions
    ∧ (processPlans s ps).1.nextId = s.nextId
    ∧ (∃ e, (processPlans s ps).1.items = s.items ++ e)
    ∧ (∃ e, (processPlans s ps).1.plans = s.plans ++ e) := by
  induction ps generalizing s with
  | nil => exact ⟨rfl, rfl, rfl, rfl, ⟨[], by simp [processPlans]⟩,
      ⟨[], by simp [processPlans]⟩⟩
  | cons pd rest ih =>
    unfold processPlans
    split
    · exact ⟨rfl, rfl, rfl, rfl, ⟨[], by simp⟩, ⟨[], by simp⟩⟩
    · rcases hrec : processPlans (planStep pd s) rest with ⟨s3, r3⟩
      have hih := ih (planStep pd s)
      rw [hrec] at hih
      obtain ⟨hc, hs, hsub, hn, ⟨e1, hi⟩, ⟨e2, hp⟩⟩ := hih
      obtain ⟨gc, gs, gsub, gn, ⟨f1, gi⟩, ⟨f2, gp⟩⟩ := planStep_frame pd s
      cases r3 <;>
        exact ⟨hc.trans gc, hs.trans gs, hsub.trans gsub, hn.trans gn,
          ⟨f1 ++ e1, by rw [hi, gi, List.append_assoc]⟩,
          ⟨f2 ++ e2, by rw [hp, gp, List.append_assoc]⟩⟩

lemma processPlans_ok_of_valid (ps : List PlanInput) (s : Store)
    (h : ∀ pd ∈ ps, strPresent pd.name = true ∧ strPresent pd.item_code = true) :
    (processPlans s ps).2
      = .ok (ps.map fun pd => { plan := pd.name.getD "", qty := pd.quantity.getD 1 }) := by
  induction ps generalizing s with
  | nil => rfl
  | cons pd rest ih =>
    obtain ⟨hn, hc⟩ := h pd (by simp)
    unfold processPlans
    rw [if_neg (by simp [hn, hc])]
    rcases hrec : processPlans (planStep pd s) rest with ⟨s3, r3⟩
    have hih := ih (planStep pd s) (fun q hq => h q (by simp [hq]))
    rw [hrec] at hih
    cases r3
    · simp at hih
    · simp only at hih ⊢
      rw [List.map_cons]
      exact congrArg _ (congrArg _ (Except.ok.inj hih))

lemma processPlans_rows_planExists (ps : List PlanInput) (s s3 : Store)
    (rows : List PlanRow) (h : processPlans s ps = (s3, .ok rows)) :
    ∀ row ∈ rows, planExists s3 row.plan = true := by
  induction ps generalizing s rows with
  | nil =>
    simp only [processPlans] at h
    injection h with hA hB
    injection hB with hB2
    subst hB2
    intro row hrow
    cases hrow
  | cons pd rest ih =>
    unfold processPlans at h
    by_cases hv : (!strPresent pd.name || !strPresent pd.item_code) = true
    · rw [if_pos hv] at h
      injection h with hA hB
      injection hB
    · rw [if_neg hv] at h
      rcases hrec : processPlans (planStep pd s) rest with ⟨s4, r4⟩
      rw [hrec] at h
      cases r4 with
      | error m =>
        injection h with hA hB
        injection hB
      | ok rows4 =>
        injection h with hA hB
        injection hB with hB2
        subst hA
        subst hB2
        intro row hrow
        rcases List.mem_cons.mp hrow with rfl | hr
        · obtain ⟨-, -, -, -, -, ⟨e2, hp⟩⟩ := processPlans_frame rest (planStep pd s)
          rw [hrec] at hp
          have hstep := planStep_planExists pd s
          simp only [planExists] at hstep ⊢
          rw [hp]
          exact any_append_left _ _ _ hstep
        · exact ih (planStep pd s) rows4 hrec row hr

lemma inv_add_item (s : Store) (it : Item) (h : Inv s) :
    Inv { s with items := s.items ++ [it] } := by
  obtain ⟨h1, h2⟩ := h
  refine ⟨fun sub hsub row hrow => h1 sub hsub row hrow, fun p hp => ?_⟩
  have := h2 p hp
  simp only [itemExists] at this ⊢
  exact any_append_left _ _ _ this

lemma inv_add_plan (s : Store) (p : SubscriptionPlan)
    (hit : itemExists s p.item = true) (h : Inv s) :
    Inv { s with plans := s.plans ++ [p] } := by
  obtain ⟨h1, h2⟩ := h
  constructor
  · intro sub hsub row hrow
    have := h1 sub hsub row hrow
    simp only [planExists] at this ⊢
    exact any_append_left _ _ _ this
  · intro q hq
    rcases List.mem_append.mp hq with hq | hq
    · exact h2 q hq
    · rcases List.mem_singleton.mp hq with rfl
      exact hit

lemma inv_add_sub (s : Store) (sub : Subscription) (n : Nat)
    (hrows : ∀ row ∈ sub.plans, planExists s row.plan = true) (h : Inv s) :
    Inv { s with subscriptions := s.subscriptions ++ [sub], nextId := n } := by
  obtain ⟨h1, h2⟩ := h
  constructor
  · intro sub2 hsub2 row hrow
    rcases List.mem_append.mp hsub2 with hs2 | hs2
    · exact h1 sub2 hs2 row hrow
    · rcases List.mem_singleton.mp hs2 with rfl
      exact hrows row hrow
  · exact h2

lemma itemStep_inv (pd : PlanInput) (s : Store) (h : Inv s) :
    Inv (itemStep pd s) := by
  unfold itemStep
  split
  · exact h
  · exact inv_add_item s _ h

lemma planStep_inv (pd : PlanInput) (s : Store) (h : Inv s) :
    Inv (planStep pd s) := by
  unfold planStep
  split
  · exact itemStep_inv pd s h
  · exact inv_add_plan (itemStep pd s) _ (itemStep_itemExists pd s) (itemStep_inv pd s h)

lemma processPlans_inv (ps : List PlanInput) (s : Store) (h : Inv s) :
    Inv (processPlans s ps).1 := by
  induction ps generalizing s with
  | nil => exact h
  | cons pd rest ih =>
    unfold processPlans
    split
    · exact h
    · rcases hrec : processPlans (planStep pd s) rest with ⟨s3, r3⟩
      have hih := ih (planStep pd s) (planStep_inv pd s h)
      rw [hrec] at hih
      cases r3 <;> exact hih

lemma createPartyIfMissing_inv (pt pn : String) (s : Store) (h : Inv s) :
    Inv (createPartyIfMissing pt pn s) := by
  obtain ⟨hi, hp, hsub, hn⟩ := createPartyIfMissing_frame pt pn s
  obtain ⟨h1, h2⟩ := h
  constructor
  · intro sub hsub2 row hrow
    rw [hsub] at hsub2
    rw [planExists_eq_of_plans_eq hp]
    exact h1 sub hsub2 row hrow
  · intro p hp2
    rw [hp] at hp2
    rw [itemExists_eq_of_items_eq hi]
    exact h2 p hp2

lemma create_eq_error_missing (d : CreateData) (s : Store) (f : String)
    (hreq : required_fields.find? (fun g => !fieldPresent d g) = some f) :
    create_subscription d s = (.error ("Missing required field: " ++ f), s) := by
  unfold create_subscription
  rw [hreq]

lemma create_eq_badplan (d : CreateData) (s : Store) (pd : PlanInput)
    (hreq : required_fields.find? (fun g => !fieldPresent d g) = none)
    (hp : d.plan = some pd)
    (hbad : (!strPresent pd.name || !strPresent pd.item_code) = true) :
    create_subscription d s
      = (.error "Plan must include \x27name\x27 and \x27item_code\x27.",
         createPartyIfMissing (d.party_type.getD "") (d.party.getD "") s) := by
  unfold create_subscription
  simp only [hreq, hp]
  rw [if_pos hbad]

lemma create_eq_createMain (d : CreateData) (s : Store) (pd : PlanInput)
    (hreq : required_fields.find? (fun g => !fieldPresent d g) = none)
    (hp : d.plan = some pd)
    (hn : strPresent pd.name = true) (hc : strPresent pd.item_code = true) :
    create_subscription d s
      = createMain d pd
          (createPartyIfMissing (d.party_type.getD "") (d.party.getD "") s) := by
  unfold create_subscription
  simp only [hreq, hp]
  rw [if_neg (by simp [hn, hc])]

lemma create_subscription_inv (d : CreateData) (s : Store) (h : Inv s) :
    Inv (create_subscription d s).2 := by
  rcases hfind : required_fields.find? (fun g => !fieldPresent d g) with _ | f
  · rcases hp : d.plan with _ | pd
    · unfold create_subscription
      simp only [hfind, hp]
      exact h
    · by_cases hv : (!strPresent pd.name || !strPresent pd.item_code) = true
      · rw [create_eq_badplan d s pd hfind hp hv]
        exact createPartyIfMissing_inv _ _ s h
      · simp only [Bool.or_eq_true, Bool.not_eq_true', not_or,
          Bool.not_eq_false] at hv
        rw [create_eq_createMain d s pd hfind hp hv.1 hv.2]
        unfold createMain
        refine inv_add_sub _ _ _ ?_
          (planStep_inv pd _ (createPartyIfMissing_inv _ _ s h))
        intro row hrow
        rcases List.mem_singleton.mp hrow with rfl
        exact planStep_planExists pd _
  · rw [create_eq_error_missing d s f hfind]
    exact h

lemma applyUpdateFields_frameOk (d : UpdateData) (rows : List PlanRow)
    (sub : Subscription) : frameOk d sub (applyUpdateFields d rows sub) := by
  obtain ⟨sid, co, gi, gn, ca, si, pl⟩ := d
  unfold applyUpdateFields frameOk
  cases co <;> cases gi <;> cases gn <;> cases ca <;> cases si <;>
    by_cases he : rows.isEmpty <;> simp [he]

lemma applyUpdateFields_plans (d : UpdateData) (rows : List PlanRow)
    (sub : Subscription) :
    (applyUpdateFields d rows sub).plans
      = if rows.isEmpty then sub.plans else rows := by
  obtain ⟨sid, co, gi, gn, ca, si, pl⟩ := d
  unfold applyUpdateFields
  cases co <;> cases gi <;> cases gn <;> cases ca <;> cases si <;>
    by_cases he : rows.isEmpty <;> simp [he]

lemma frameOk_refl (d : UpdateData) (sub : Subscription) : frameOk d sub sub := by
  unfold frameOk
  refine ⟨rfl, rfl, rfl, rfl, rfl, rfl, rfl, rfl, ?_, ?_, ?_, ?_, ?_⟩ <;>
    exact fun _ => rfl

lemma updFrame_refl (d : UpdateData) (sub : Subscription) : updFrame d sub sub :=
  ⟨fun _ => rfl, frameOk_refl d sub⟩

lemma forall2_map_self {α : Type} (R : α → α → Prop) (f : α → α) (l : List α)
    (h : ∀ x ∈ l, R x (f x)) : List.Forall₂ R l (l.map f) := by
  induction l with
  | nil => exact List.Forall₂.nil
  | cons a l ih =>
    exact List.Forall₂.cons (h a (by simp)) (ih (fun x hx => h x (by simp [hx])))

lemma update_eq_missing (d : UpdateData) (s : Store)
    (h : strPresent d.subscription_id = false) :
    update_subscription d s = (.error "Missing \x27subscription_id\x27", s) := by
  unfold update_subscription
  rw [if_pos (by simp [h])]

lemma update_eq_notfound (d : UpdateData) (s : Store)
    (h1 : strPresent d.subscription_id = true)
    (h2 : subscriptionExists s (d.subscription_id.getD "") = false) :
    update_subscription d s
      = (.error ("Subscription \x27" ++ d.subscription_id.getD ""
          ++ "\x27 does not exist"), s) := by
  unfold update_subscription
  rw [if_neg (by simp [h1]), if_pos (by simp [h2])]

lemma update_eq_error_plans (d : UpdateData) (s s1 : Store) (m : String)
    (h1 : strPresent d.subscription_id = true)
    (h2 : subscriptionExists s (d.subscription_id.getD "") = true)
    (hpp : processPlans s (d.plans.getD []) = (s1, .error m)) :
    update_subscription d s = (.error m, s1) := by
  unfold update_subscription
  rw [if_neg (by simp [h1]), if_neg (by simp [h2])]
  simp only [hpp]

lemma update_eq_ok (d : UpdateData) (s s1 : Store) (rows : List PlanRow)
    (h1 : strPresent d.subscription_id = true)
    (h2 : subscriptionExists s (d.subscription_id.getD "") = true)
    (hpp : processPlans s (d.plans.getD []) = (s1, .ok rows)) :
    update_subscription d s
      = (.success ("Subscription \x27" ++ d.subscription_id.getD ""
            ++ "\x27 updated successfully") rows,
         { s1 with subscriptions :=
             s1.subscriptions.map (fun sub =>
               if sub.name == d.subscription_id.getD ""
               then applyUpdateFields d rows sub else sub) }) := by
  unfold update_subscription
  rw [if_neg (by simp [h1]), if_neg (by simp [h2])]
  simp only [hpp]

lemma update_subscription_inv (d : UpdateData) (s : Store) (h : Inv s) :
    Inv (update_subscription d s).2 := by
  cases h1 : strPresent d.subscription_id with
  | false =>
    rw [update_eq_missing d s h1]
    exact h
  | true =>
    cases h2 : subscriptionExists s (d.subscription_id.getD "") with
    | false =>
      rw [update_eq_notfound d s h1 h2]
      exact h
    | true =>
      rcases hpp : processPlans s (d.plans.getD []) with ⟨s1, r1⟩
      have hinv1 := processPlans_inv (d.plans.getD []) s h
      rw [hpp] at hinv1
      cases r1 with
      | error m =>
        rw [update_eq_error_plans d s s1 m h1 h2 hpp]
        exact hinv1
      | ok rows =>
        rw [update_eq_ok d s s1 rows h1 h2 hpp]
        obtain ⟨g1, g2⟩ := hinv1
        constructor
        · intro sub hsub row hrow
          rcases List.mem_map.mp hsub with ⟨x, hx, rfl⟩
          show planExists s1 row.plan = true
          by_cases hname : (x.name == d.subscription_id.getD "") = true
          · rw [if_pos hname, applyUpdateFields_plans] at hrow
            by_cases hre : rows.isEmpty = true
            · rw [if_pos hre] at hrow
              exact g1 x hx row hrow
            · rw [if_neg hre] at hrow
              exact processPlans_rows_planExists _ _ _ _ hpp row hrow
          · rw [if_neg hname] at hrow
            exact g1 x hx row hrow
        · intro p hp
          exact g2 p hp

lemma delete_eq_missing (sid? : Option String) (s : Store)
    (h : strPresent sid? = false) :
    delete_subscription sid? s = (.error "Missing subscription_id", s) := by
  unfold delete_subscription
  rw [if_pos (by simp [h])]

lemma delete_eq_notfound (sid? : Option String) (s : Store)
    (h1 : strPresent sid? = true)
    (h2 : subscriptionExists s (sid?.getD "") = false) :
    delete_subscription sid? s
      = (.error ("Subscription \x27" ++ sid?.getD "" ++ "\x27 does not exist"),
         s) := by
  unfold delete_subscription
  rw [if_neg (by simp [h1]), if_pos (by simp [h2])]

lemma delete_eq_ok (sid? : Option String) (s : Store)
    (h1 : strPresent sid? = true)
    (h2 : subscriptionExists s (sid?.getD "") = true) :
    delete_subscription sid? s
      = (.success ("Subscription \x27" ++ sid?.getD ""
            ++ "\x27 deleted successfully"),
         { s with subscriptions :=
             s.subscriptions.filter (fun sub => !(sub.name == sid?.getD "")) }) := by
  unfold delete_subscription
  rw [if_neg (by simp [h1]), if_neg (by simp [h2])]

lemma delete_subscription_inv (sid? : Option String) (s : Store) (h : Inv s) :
    Inv (delete_subscription sid? s).2 := by
  cases h1 : strPresent sid? with
  | false =>
    rw [delete_eq_missing sid? s h1]
    exact h
  | true =>
    cases h2 : subscriptionExists s (sid?.getD "") with
    | false =>
      rw [delete_eq_notfound sid? s h1 h2]
      exact h
    | true =>
      rw [delete_eq_ok sid? s h1 h2]
      obtain ⟨g1, g2⟩ := h
      constructor
      · intro sub hsub row hrow
        show planExists s row.plan = true
        exact g1 sub (List.mem_of_mem_filter hsub) row hrow
      · intro p hp
        exact g2 p hp

lemma applyOp_inv (s : Store) (op : Op) (h : Inv s) : Inv (applyOp s op) := by
  cases op with
  | create d => exact create_subscription_inv d s h
  | update d => exact update_subscription_inv d s h
  | delete sid => exact delete_subscription_inv sid s h

lemma runOps_inv (ops : List Op) (s : Store) (h : Inv s) : Inv (runOps s ops) := by
  induction ops generalizing s with
  | nil => exact h
  | cons op ops ih => exact ih (applyOp s op) (applyOp_inv s op h)

lemma itemStep_of_exists (pd : PlanInput) (s : Store)
    (h : itemExists s (pd.item_code.getD "") = true) : itemStep pd s = s := by
  unfold itemStep
  rw [if_pos h]

lemma itemStep_of_missing (pd : PlanInput) (s : Store)
    (h : itemExists s (pd.item_code.getD "") = false) :
    itemStep pd s
      = { s with items :=
            s.items ++ [mkAutoItem (pd.item_code.getD "") (pd.name.getD "")] } := by
  unfold itemStep
  rw [if_neg (by simp [h])]

lemma planStep_of_exists (pd : PlanInput) (s : Store)
    (h : planExists (itemStep pd s) (pd.name.getD "") = true) :
    planStep pd s = itemStep pd s := by
  unfold planStep
  rw [if_pos h]

lemma planStep_of_missing (pd : PlanInput) (s : Store)
    (h : planExists (itemStep pd s) (pd.name.getD "") = false) :
    planStep pd s
      = { itemStep pd s with plans :=
            (itemStep pd s).plans
              ++ [mkAutoPlan (pd.name.getD "") (pd.item_code.getD "") pd] } := by
  unfold planStep
  rw [if_neg (by simp [h])]

/-! ## Claim theorems -/

/-- C1: for every `create(data)` input in which at least one of the five
required top-level fields is absent or empty, the call returns a
structured error naming the first such missing field (in the order
`party_type`, `party`, `start_date`, `end_date`, `plan` of the source's
`required_fields` list), and the document store is completely
unchanged. -/
theorem create_missing_required_field (d : CreateData) (s : Store) (f : String)
    (l₁ l₂ : List String) (hdec : required_fields = l₁ ++ f :: l₂)
    (hbefore : ∀ g ∈ l₁, fieldPresent d g = true)
    (hmiss : fieldPresent d f = false) :
    create_subscription d s = (.error ("Missing required field: " ++ f), s) := by
  apply create_eq_error_missing
  rw [hdec]
  exact find?_of_append_cons _ _ _ _ (fun x hx => by simp [hbefore x hx])
    (by simp [hmiss])

/-- C1 witness: the empty payload is rejected with `party_type`, the
first field of the list, and the empty store stays empty. -/
theorem create_missing_required_field_witness :
    create_subscription dNothing Store.empty
      = (.error ("Missing required field: " ++ "party_type"), Store.empty) :=
  create_missing_required_field dNothing Store.empty "party_type" []
    ["party", "start_date", "end_date", "plan"] rfl
    (fun g hg => absurd hg (List.not_mem_nil g)) (by decide)

/-- C2 counterexample: a payload whose five required fields are present
but whose `plan` sub-dictionary lacks `name` is rejected only after the
party step has run, so the call returns a structured error AND a
`Customer` record has been created: the claim that such a call performs
no side effect is false on the code. -/
theorem create_badplan_counterexample :
    create_subscription dBadPlan Store.empty
      = (.error "Plan must include \x27name\x27 and \x27item_code\x27.",
         { Store.empty with customers := ["Alice"] })
    ∧ ({ Store.empty with customers := ["Alice"] } : Store) ≠ Store.empty := by
  exact ⟨by decide, by decide⟩

/-- C2 (amended): the five required-field validations precede every side
effect, but the `plan` sub-object validation runs after the party step:
a call whose plan lacks `name` or `item_code` returns a structured error
having possibly created a `Customer`/`Supplier`, while no `Item`,
`Subscription Plan` or `Subscription` is created. -/
theorem create_badplan_error_frame (d : CreateData) (s : Store) (pd : PlanInput)
    (hreq : required_fields.find? (fun g => !fieldPresent d g) = none)
    (hp : d.plan = some pd)
    (hbad : (strPresent pd.name && strPresent pd.item_code) = false) :
    create_subscription d s
      = (.error "Plan must include \x27name\x27 and \x27item_code\x27.",
         createPartyIfMissing (d.party_type.getD "") (d.party.getD "") s)
    ∧ (createPartyIfMissing (d.party_type.getD "") (d.party.getD "") s).items
        = s.items
    ∧ (createPartyIfMissing (d.party_type.getD "") (d.party.getD "") s).plans
        = s.plans
    ∧ (createPartyIfMissing (d.party_type.getD "") (d.party.getD "") s).subscriptions
        = s.subscriptions := by
  obtain ⟨hi, hp2, hsub, -⟩ :=
    createPartyIfMissing_frame (d.party_type.getD "") (d.party.getD "") s
  refine ⟨?_, hi, hp2, hsub⟩
  apply create_eq_badplan d s pd hreq hp
  cases hA : strPresent pd.name <;> cases hB : strPresent pd.item_code <;>
    simp_all

/-- C2 witness: the bad-plan payload on the empty store leaves the
subscription table unchanged. -/
theorem create_badplan_error_frame_witness :
    (create_subscription dBadPlan Store.empty).2.subscriptions
      = Store.empty.subscriptions := by
  have h := create_badplan_error_frame dBadPlan Store.empty
    { PlanInput.emptyDict with item_code := some "ITM-1" } (by decide) rfl
    (by decide)
  rw [h.1]
  exact h.2.2.2

/-- C3: for a valid `create(data)` input (all required fields present,
plan sub-object carrying `name` and `item_code`): when neither the item
code nor the plan name pre-exists the call returns success with
`item_created = true`, `plan_created = true` and the generated
subscription id, and a `Subscription` referencing the (now existing)
plan is persisted; when both pre-exist, the call returns
`item_created = false` and `plan_created = false`. -/
theorem create_item_plan_flags (d : CreateData) (s : Store) (pd : PlanInput)
    (hreq : required_fields.find? (fun g => !fieldPresent d g) = none)
    (hp : d.plan = some pd)
    (hn : strPresent pd.name = true) (hc : strPresent pd.item_code = true) :
    (itemExists s (pd.item_code.getD "") = false →
      planExists s (pd.name.getD "") = false →
      (create_subscription d s).1 = .success (genSubName s.nextId) true true
      ∧ ∃ sub ∈ (create_subscription d s).2.subscriptions,
          sub.name = genSubName s.nextId
          ∧ sub.plans = [{ plan := pd.name.getD "", qty := pd.quantity.getD 1 }]
          ∧ planExists (create_subscription d s).2 (pd.name.getD "") = true)
    ∧ (itemExists s (pd.item_code.getD "") = true →
        planExists s (pd.name.getD "") = true →
        (create_subscription d s).1 = .success (genSubName s.nextId) false false) := by
  rw [create_eq_createMain d s pd hreq hp hn hc]
  obtain ⟨hpi, hpp, hpsub, hpn⟩ :=
    createPartyIfMissing_frame (d.party_type.getD "") (d.party.getD "") s
  generalize hS : createPartyIfMissing (d.party_type.getD "") (d.party.getD "") s
    = s1 at hpi hpp hpsub hpn ⊢
  constructor
  · intro hitem hplan
    have hfst := createMain_fst d pd s1
    rw [itemExists_eq_of_items_eq hpi, planExists_eq_of_plans_eq hpp, hpn,
      hitem, hplan] at hfst
    simp only [Bool.not_false] at hfst
    obtain ⟨-, -, hsubs, -, hpe⟩ := createMain_store d pd s1
    refine ⟨hfst, mkNewSub d pd s1.nextId, ?_, ?_, rfl, hpe⟩
    · rw [hsubs]
      exact List.mem_append_right _ (List.mem_singleton_self _)
    · show genSubName s1.nextId = genSubName s.nextId
      rw [hpn]
  · intro hitem hplan
    have hfst := createMain_fst d pd s1
    rw [itemExists_eq_of_items_eq hpi, planExists_eq_of_plans_eq hpp, hpn,
      hitem, hplan] at hfst
    simp only [Bool.not_true] at hfst
    exact hfst

/-- C3 witness: the `Gold` payload on the empty store creates both
records and reports both flags true. -/
theorem create_item_plan_flags_witness :
    (create_subscription dGold Store.empty).1
      = .success (genSubName Store.empty.nextId) true true :=
  ((create_item_plan_flags dGold Store.empty pdGold (by decide) rfl (by decide)
      (by decide)).1 (by decide) (by decide)).1

/-- C4 counterexample: an `update` call carrying an EMPTY `plans` array
succeeds with `updated_plans = []`, yet the stored subscription keeps
its old plan line (the code clears the line list only when the rebuilt
list is non-empty), so the post-state line list is not the list built
from the provided array. -/
theorem update_empty_plans_counterexample :
    (update_subscription udEmptyPlans sGold).1
      = .success ("Subscription \x27SUB-0\x27 updated successfully") []
    ∧ (update_subscription udEmptyPlans sGold).2 = sGold
    ∧ subGold ∈ sGold.subscriptions
    ∧ subGold.plans ≠ ([] : List PlanRow) :=
  ⟨by decide, by decide, by decide, by decide⟩

/-- C4 (amended): for an `update` call on an existing subscription
carrying a NON-EMPTY `plans` array whose every entry includes `name` and
`item_code`, the targeted subscription's line list after the call is
exactly the rows built from the array, in order, and the success
payload's `updated_plans` field is that same list. -/
theorem update_nonempty_plans_replace (d : UpdateData) (s : Store)
    (ps : List PlanInput)
    (h1 : strPresent d.subscription_id = true)
    (hex : subscriptionExists s (d.subscription_id.getD "") = true)
    (hps : d.plans = some ps) (hne : ps ≠ [])
    (hvalid : ∀ pd ∈ ps, strPresent pd.name = true ∧ strPresent pd.item_code = true) :
    (update_subscription d s).1
      = .success ("Subscription \x27" ++ d.subscription_id.getD ""
          ++ "\x27 updated successfully")
          (ps.map fun pd => { plan := pd.name.getD "", qty := pd.quantity.getD 1 })
    ∧ ∀ sub ∈ (update_subscription d s).2.subscriptions,
        sub.name = d.subscription_id.getD "" →
        sub.plans
          = ps.map fun pd => { plan := pd.name.getD "", qty := pd.quantity.getD 1 } := by
  have hgd : d.plans.getD [] = ps := by rw [hps]; rfl
  rcases hpp : processPlans s (d.plans.getD []) with ⟨s1, r1⟩
  have hok := processPlans_ok_of_valid (d.plans.getD []) s
    (by rw [hgd]; exact hvalid)
  rw [hpp] at hok
  cases r1 with
  | error m => simp at hok
  | ok rows =>
    have hrows : rows
        = ps.map fun pd => { plan := pd.name.getD "", qty := pd.quantity.getD 1 } := by
      have := Except.ok.inj hok
      rw [hgd] at this
      exact this
    subst hrows
    rw [update_eq_ok d s s1 _ h1 hex hpp]
    have hre : (ps.map fun pd =>
        ({ plan := pd.name.getD "", qty := pd.quantity.getD 1 } : PlanRow)).isEmpty
          = false := by
      cases ps with
      | nil => exact absurd rfl hne
      | cons p0 ps2 => rfl
    refine ⟨rfl, ?_⟩
    intro sub hsub hname
    rcases List.mem_map.mp hsub with ⟨x, hx, rfl⟩
    by_cases hxeq : (x.name == d.subscription_id.getD "") = true
    · rw [if_pos hxeq, applyUpdateFields_plans, hre]
      simp only [Bool.false_eq_true, if_false]
    · rw [if_neg hxeq] at hname
      exact absurd (beq_iff_eq.mpr hname) hxeq

/-- C4 witness: replacing the `Gold` line of the stored subscription
with one `Silver` line. -/
theorem update_nonempty_plans_replace_witness :
    (update_subscription udSilver sGold).1
      = .success ("Subscription \x27" ++ "SUB-0" ++ "\x27 updated successfully")
          [{ plan := "Silver", qty := 3 }] :=
  (update_nonempty_plans_replace udSilver sGold [pdSilver] (by decide) (by decide)
    rfl (by decide) (by decide)).1

/-- C5: `delete(subscription_id)` requires a non-empty identifier naming
an existing `Subscription`: a missing/empty or unknown identifier yields
a structured error with the store completely unchanged; an existing one
deletes exactly that record (all other record kinds untouched) and
returns success. -/
theorem delete_subscription_full_spec (sid? : Option String) (s : Store) :
    (strPresent sid? = false →
      delete_subscription sid? s = (.error "Missing subscription_id", s))
    ∧ (∀ sid, sid? = some sid → sid ≠ "" →
        subscriptionExists s sid = false →
        delete_subscription sid? s
          = (.error ("Subscription \x27" ++ sid ++ "\x27 does not exist"), s))
    ∧ (∀ sid, sid? = some sid → sid ≠ "" →
        subscriptionExists s sid = true →
        (delete_subscription sid? s).1
          = .success ("Subscription \x27" ++ sid ++ "\x27 deleted successfully")
        ∧ (∀ sub, sub ∈ (delete_subscription sid? s).2.subscriptions
              ↔ sub ∈ s.subscriptions ∧ sub.name ≠ sid)
        ∧ (delete_subscription sid? s).2.customers = s.customers
        ∧ (delete_subscription sid? s).2.suppliers = s.suppliers
        ∧ (delete_subscription sid? s).2.items = s.items
        ∧ (delete_subscription sid? s).2.plans = s.plans) := by
  refine ⟨fun h => delete_eq_missing sid? s h, ?_, ?_⟩
  · rintro sid rfl hne hex
    exact delete_eq_notfound (some sid) s (by simp [strPresent, hne]) hex
  · rintro sid rfl hne hex
    rw [delete_eq_ok (some sid) s (by simp [strPresent, hne]) hex]
    refine ⟨rfl, ?_, rfl, rfl, rfl, rfl⟩
    intro sub
    show sub ∈ s.subscriptions.filter (fun x => !(x.name == sid)) ↔ _
    rw [List.mem_filter]
    simp [Bool.not_eq_true', beq_eq_false_iff_ne]

/-- C5 witness: deleting the stored subscription `SUB-0` succeeds. -/
theorem delete_subscription_full_spec_witness :
    (delete_subscription (some "SUB-0") sGold).1
      = .success ("Subscription \x27" ++ "SUB-0" ++ "\x27 deleted successfully") :=
  ((delete_subscription_full_spec (some "SUB-0") sGold).2.2 "SUB-0" rfl
    (by decide) (by decide)).1

/-- C6: `get_all_subscriptions` returns exactly the stored
`Subscription` records (a permutation: nothing filtered, nothing
paginated), pairwise ordered by descending `start_date`, for every state
of the store. -/
theorem get_all_subscriptions_sorted (s : Store) :
    (get_all_subscriptions s).Perm s.subscriptions
    ∧ (get_all_subscriptions s).Pairwise (fun a b => b.start_date ≤ a.start_date) :=
  ⟨sortByStartDateDesc_perm s.subscriptions,
   sortByStartDateDesc_pairwise s.subscriptions⟩

/-- C7: referential integrity of every reachable state: starting from
the empty store (or any store satisfying `Inv`), after any sequence of
create/update/delete calls every stored subscription's plan rows name an
existing `Subscription Plan` and every stored plan names an existing
`Item`; moreover the auto-creation steps deduplicate solely by the
existence check on the item code / plan name, inserting the hardcoded
default documents (`mkAutoItem` / `mkAutoPlan`) exactly when the check
fails. -/
theorem crud_referential_integrity :
    (∀ ops : List Op, Inv (runOps Store.empty ops))
    ∧ (∀ (ops : List Op) (s : Store), Inv s → Inv (runOps s ops))
    ∧ (∀ (pd : PlanInput) (s : Store),
        itemExists s (pd.item_code.getD "") = true → itemStep pd s = s)
    ∧ (∀ (pd : PlanInput) (s : Store),
        itemExists s (pd.item_code.getD "") = false →
        itemStep pd s = { s with items :=
          s.items ++ [mkAutoItem (pd.item_code.getD "") (pd.name.getD "")] })
    ∧ (∀ (pd : PlanInput) (s : Store),
        planExists (itemStep pd s) (pd.name.getD "") = true →
        planStep pd s = itemStep pd s)
    ∧ (∀ (pd : PlanInput) (s : Store),
        planExists (itemStep pd s) (pd.name.getD "") = false →
        planStep pd s = { itemStep pd s with plans :=
          (itemStep pd s).plans
            ++ [mkAutoPlan (pd.name.getD "") (pd.item_code.getD "") pd] }) :=
  ⟨fun ops => runOps_inv ops Store.empty
      ⟨fun sub h => absurd h (List.not_mem_nil sub),
       fun p h => absurd h (List.not_mem_nil p)⟩,
   fun ops s h => runOps_inv ops s h,
   itemStep_of_exists, itemStep_of_missing,
   planStep_of_exists, planStep_of_missing⟩

/-- C7 witness: the invariant holds on the store after a create, an
update and a delete, starting from the concrete store `sGold`. -/
theorem crud_referential_integrity_witness :
    Inv (runOps sGold [Op.create dGold, Op.update udSilver,
      Op.delete (some "SUB-0")]) :=
  crud_referential_integrity.2.1 _ sGold ⟨by decide, by decide⟩

/-- C8: the frame of `update_subscription`: customers, suppliers and the
name counter are untouched, items and plans only grow (auto-created
documents are appended), and the stored subscriptions are in one-to-one
frame-preserving correspondence with the old ones: any subscription
other than the targeted one is completely unchanged, and even the
targeted one keeps its name, party, schedule and trial fields, with each
mutable scalar field unchanged whenever its key is absent from the
payload. -/
theorem update_subscription_frame (d : UpdateData) (s : Store) :
    (update_subscription d s).2.customers = s.customers
    ∧ (update_subscription d s).2.suppliers = s.suppliers
    ∧ (update_subscription d s).2.nextId = s.nextId
    ∧ (∃ e, (update_subscription d s).2.items = s.items ++ e)
    ∧ (∃ e, (update_subscription d s).2.plans = s.plans ++ e)
    ∧ List.Forall₂ (updFrame d) s.subscriptions
        (update_subscription d s).2.subscriptions := by
  cases h1 : strPresent d.subscription_id with
  | false =>
    rw [update_eq_missing d s h1]
    exact ⟨rfl, rfl, rfl, ⟨[], by simp⟩, ⟨[], by simp⟩,
      List.forall₂_same.mpr (fun x _ => updFrame_refl d x)⟩
  | true =>
    cases h2 : subscriptionExists s (d.subscription_id.getD "") with
    | false =>
      rw [update_eq_notfound d s h1 h2]
      exact ⟨rfl, rfl, rfl, ⟨[], by simp⟩, ⟨[], by simp⟩,
        List.forall₂_same.mpr (fun x _ => updFrame_refl d x)⟩
    | true =>
      rcases hpp : processPlans s (d.plans.getD []) with ⟨s1, r1⟩
      obtain ⟨hc, hs, hsub, hn, hi, hp⟩ := processPlans_frame (d.plans.getD []) s
      rw [hpp] at hc hs hsub hn hi hp
      cases r1 with
      | error m =>
        rw [update_eq_error_plans d s s1 m h1 h2 hpp]
        refine ⟨hc, hs, hn, hi, hp, ?_⟩
        show List.Forall₂ (updFrame d) s.subscriptions s1.subscriptions
        rw [hsub]
        exact List.forall₂_same.mpr (fun x _ => updFrame_refl d x)
      | ok rows =>
        rw [update_eq_ok d s s1 rows h1 h2 hpp]
        refine ⟨hc, hs, hn, hi, hp, ?_⟩
        show List.Forall₂ (updFrame d) s.subscriptions
          (s1.subscriptions.map (fun sub =>
            if sub.name == d.subscription_id.getD ""
            then applyUpdateFields d rows sub else sub))
        rw [← hsub]
        apply forall2_map_self
        intro x _
        constructor
        · intro hxne
          rw [if_neg (by simp [hxne])]
        · by_cases hxeq : (x.name == d.subscription_id.getD "") = true
          · rw [if_pos hxeq]
            exact applyUpdateFields_frameOk d rows x
          · rw [if_neg hxeq]
            exact frameOk_refl d x

/-- C9 counterexample: `get_all_subscriptions` does not return a mapping
with a `status` field: on the empty store its wire response is the JSON
array `[]`, which carries no `status` at all, refuting the claim that
every remote-callable procedure of the module returns such a mapping. -/
theorem get_all_no_status_counterexample :
    get_all_subscriptions_response Store.empty = JValue.arr []
    ∧ hasStatusField (JValue.arr []) = false :=
  ⟨rfl, rfl⟩

/-- C9 (amended): the three mutating endpoints always return a mapping
whose `status` is `"success"` or `"error"`, with a `message` on error
and the operation-specific keys (`subscription_id`/`item_created`/
`plan_created` for create, `message`/`updated_plans` for update,
`message` for delete) on success; the read endpoint
`get_all_subscriptions` instead returns a JSON array of records. -/
theorem mutating_endpoint_response_shape (d : CreateData) (ud : UpdateData)
    (sid? : Option String) (s : Store) :
    wireShapeOk ((create_subscription d s).1.toJson)
        ["subscription_id", "item_created", "plan_created"] = true
    ∧ wireShapeOk ((update_subscription ud s).1.toJson)
        ["message", "updated_plans"] = true
    ∧ wireShapeOk ((delete_subscription sid? s).1.toJson) ["message"] = true
    ∧ (∃ l, get_all_subscriptions_response s = JValue.arr l) := by
  refine ⟨?_, ?_, ?_, ⟨_, rfl⟩⟩
  · rcases (create_subscription d s).1 with m | ⟨sid, ic, pc⟩ <;> rfl
  · rcases (update_subscription ud s).1 with m | ⟨m, rows⟩ <;> rfl
  · rcases (delete_subscription sid? s).1 with m | m <;> rfl

/-- C10: `str_to_bool` is true exactly on values whose lowercase string
form is `"true"`, `"1"` or `"yes"`; an absent value (Python `None`,
whose string form lowers to `"none"`) and any other value give false;
and every successful `create` persists the three boolean flags as
`strToBoolOpt` of the corresponding input, hence as false when the flag
is omitted or carries any other value. -/
theorem str_to_bool_spec :
    (∀ v : String, str_to_bool v = true
      ↔ (pyLower v = "true" ∨ pyLower v = "1" ∨ pyLower v = "yes"))
    ∧ strToBoolOpt none = false
    ∧ (∀ w : String,
        ¬(pyLower w = "true" ∨ pyLower w = "1" ∨ pyLower w = "yes") →
        strToBoolOpt (some w) = false)
    ∧ (∀ (d : CreateData) (s : Store) (sid : String) (ic pc : Bool),
        (create_subscription d s).1 = .success sid ic pc →
        ∃ sub ∈ (create_subscription d s).2.subscriptions,
          sub.name = sid
          ∧ sub.generate_new_invoices_past_due_date
              = strToBoolOpt d.generate_new_invoices_past_due_date
          ∧ sub.cancel_at_period_end = strToBoolOpt d.cancel_at_period_end
          ∧ sub.submit_invoice = strToBoolOpt d.submit_invoice) := by
  have hiff : ∀ v : String, str_to_bool v = true
      ↔ (pyLower v = "true" ∨ pyLower v = "1" ∨ pyLower v = "yes") := by
    intro v
    simp [str_to_bool, or_assoc]
  refine ⟨hiff, by decide, ?_, ?_⟩
  · intro w hw
    cases hb : str_to_bool w with
    | false => exact hb
    | true => exact absurd ((hiff w).mp hb) hw
  · intro d s sid ic pc hsucc
    rcases hfind : required_fields.find? (fun g => !fieldPresent d g) with _ | f
    · rcases hp : d.plan with _ | pd
      · unfold create_subscription at hsucc
        simp only [hfind, hp] at hsucc
        simp at hsucc
      · by_cases hv : (!strPresent pd.name || !strPresent pd.item_code) = true
        · rw [create_eq_badplan d s pd hfind hp hv] at hsucc
          simp at hsucc
        · simp only [Bool.or_eq_true, Bool.not_eq_true', not_or,
            Bool.not_eq_false] at hv
          rw [create_eq_createMain d s pd hfind hp hv.1 hv.2] at hsucc ⊢
          generalize hS : createPartyIfMissing (d.party_type.getD "")
            (d.party.getD "") s = s1 at hsucc ⊢
          have hfst := createMain_fst d pd s1
          rw [hfst] at hsucc
          obtain ⟨hname, -, -⟩ := CreateResp.success.inj hsucc
          obtain ⟨-, -, hsubs, -, -⟩ := createMain_store d pd s1
          refine ⟨mkNewSub d pd s1.nextId, ?_, hname, rfl, rfl, rfl⟩
          rw [hsubs]
          exact List.mem_append_right _ (List.mem_singleton_self _)
    · rw [create_eq_error_missing d s f hfind] at hsucc
      simp at hsucc

/-- C10 witness: the `Gold` payload (which omits two flags and passes
`"no"` for the third) persists all three flags as false. -/
theorem str_to_bool_spec_witness :
    ∃ sub ∈ (create_subscription dGold Store.empty).2.subscriptions,
      sub.name = "SUB-0"
      ∧ sub.generate_new_invoices_past_due_date
          = strToBoolOpt dGold.generate_new_invoices_past_due_date
      ∧ sub.cancel_at_period_end = strToBoolOpt dGold.cancel_at_period_end
      ∧ sub.submit_invoice = strToBoolOpt dGold.submit_invoice :=
  str_to_bool_spec.2.2.2 dGold Store.empty "SUB-0" true true (by decide)

end SubscriptionApi
